import Mathlib

/-!
# datenight-spinner: the in-memory store and its REST handlers

A shallow embedding of `server/storage.ts` (class `MemStorage`) and of the route
handlers of `server/routes.ts` (`registerRoutes`), as bundled in `src/index.js`.

Modelling conventions.

* A JavaScript number is modelled by `JsNumber`: either `NaN` or an exact integer.
  The id counters are natural numbers (the double-precision limit `2^53` of `x++`
  is not modelled; counters start at 1 and grow by one per insertion).
* A JavaScript `Map` is modelled by `JsMap`: the list of its entries in insertion
  order. Key comparison is SameValueZero, which on `JsNumber` is plain equality
  (`NaN` equals `NaN`, and `-0`, `+0` are both `int 0`).
* `async` methods never suspend; each is a function from the state before the call
  to the state after it together with the returned value.
* The zod schemas are built by libraries outside the repository; handlers take them
  as a parameter (`Schemas`).
-/

namespace DateNight

/-! ## JavaScript values -/

/-- A JavaScript number: `NaN` or an integer value. -/
inductive JsNumber where
  | nan : JsNumber
  | int (n : Int) : JsNumber
deriving DecidableEq, Repr

/-- A JavaScript `Map` keyed by numbers: its entries in insertion order. -/
structure JsMap (α : Type) where
  entries : List (JsNumber × α)
deriving DecidableEq, Repr

namespace JsMap

variable {α : Type}

/-- The map built by `new Map()`. -/
def empty : JsMap α := ⟨[]⟩

/-- The keys in insertion order. -/
def keys (m : JsMap α) : List JsNumber := m.entries.map Prod.fst

/-- `Map.prototype.has`. -/
def has (m : JsMap α) (k : JsNumber) : Bool := m.entries.any (fun e => decide (e.1 = k))

/-- `Map.prototype.get`; `none` stands for `undefined`. -/
def get (m : JsMap α) (k : JsNumber) : Option α :=
  (m.entries.find? (fun e => decide (e.1 = k))).map Prod.snd

/-- `Map.prototype.set`: an existing key keeps its position and takes the new value,
a new key is appended. -/
def set (m : JsMap α) (k : JsNumber) (v : α) : JsMap α :=
  if m.has k then
    ⟨m.entries.map (fun e => if e.1 = k then (k, v) else e)⟩
  else
    ⟨m.entries ++ [(k, v)]⟩

/-- `Map.prototype.delete`: the map without the key, and whether the key was present. -/
def delete (m : JsMap α) (k : JsNumber) : JsMap α × Bool :=
  (⟨m.entries.filter (fun e => !decide (e.1 = k))⟩, m.has k)

/-- `Array.from(map.values())`. -/
def values (m : JsMap α) : List α := m.entries.map Prod.snd

/-- The invariant of a `Map`: no key occurs twice. -/
def WF (m : JsMap α) : Prop := m.keys.Nodup

end JsMap

/-! ## `parseInt` -/

/-- The white space and line terminator characters that `parseInt` skips at the start
of its argument (`StrWhiteSpaceChar` of ECMAScript). -/
def isStrWhiteSpaceChar (c : Char) : Bool :=
  let n := c.toNat
  n = 0x09 || n = 0x0A || n = 0x0B || n = 0x0C || n = 0x0D || n = 0x20 || n = 0xA0 ||
  n = 0x1680 || (0x2000 ≤ n && n ≤ 0x200A) || n = 0x2028 || n = 0x2029 || n = 0x202F ||
  n = 0x205F || n = 0x3000 || n = 0xFEFF

/-- The value of a character as a digit, letters counting from ten. -/
def digitValue (c : Char) : Option Nat :=
  let n := c.toNat
  if 48 ≤ n ∧ n ≤ 57 then some (n - 48)
  else if 97 ≤ n ∧ n ≤ 122 then some (n - 97 + 10)
  else if 65 ≤ n ∧ n ≤ 90 then some (n - 65 + 10)
  else none

/-- Whether the character is a digit of the given radix. -/
def isRadixDigit (radix : Nat) (c : Char) : Bool :=
  match digitValue c with
  | some d => decide (d < radix)
  | none => false

/-- The sign step of `parseInt`: a leading `-` or `+` is removed, `-` is remembered. -/
def stripSign : List Char → Bool × List Char
  | '-' :: t => (true, t)
  | '+' :: t => (false, t)
  | s => (false, s)

/-- The radix step of `parseInt` called without a radix: `0x` or `0X` selects 16 and
is removed, otherwise the radix is 10. -/
def stripHexMarker : List Char → Nat × List Char
  | '0' :: 'x' :: t => (16, t)
  | '0' :: 'X' :: t => (16, t)
  | s => (10, s)

/-- `parseInt(string)` with no radix argument, as the handlers call it. -/
def parseInt (input : String) : JsNumber :=
  let s := input.toList.dropWhile isStrWhiteSpaceChar
  let (negative, s) := stripSign s
  let (radix, s) := stripHexMarker s
  let z := s.takeWhile (isRadixDigit radix)
  if z.isEmpty then JsNumber.nan
  else
    let mathInt : Nat := z.foldl (fun acc c => acc * radix + (digitValue c).getD 0) 0
    JsNumber.int (if negative then -(mathInt : Int) else (mathInt : Int))

/-! ## Records (`shared/schema.ts`) -/

/-- A row of `users`. -/
structure User where
  id : Nat
  username : String
  password : String
deriving DecidableEq, Repr

/-- A row of `date_options`. -/
structure DateOption where
  id : Nat
  label : String
  weight : Int
  color : String
  isDefault : Bool
deriving DecidableEq, Repr

/-- A row of `subscriptions`. -/
structure Subscription where
  id : Nat
  name : String
  email : String
deriving DecidableEq, Repr

/-- The output type of `insertUserSchema`. -/
structure InsertUser where
  username : String
  password : String
deriving DecidableEq, Repr

/-- The output type of `insertDateOptionSchema`: all three fields present. -/
structure InsertDateOption where
  label : String
  weight : Int
  color : String
deriving DecidableEq, Repr

/-- The output type of `insertDateOptionSchema.partial()`: any subset of the fields. -/
structure UpdateDateOption where
  label : Option String
  weight : Option Int
  color : Option String
deriving DecidableEq, Repr

/-- The output type of `insertSubscriptionSchema`. -/
structure InsertSubscription where
  name : String
  email : String
deriving DecidableEq, Repr

/-! ## `MemStorage` (`server/storage.ts`) -/

/-- The fields of a `MemStorage` instance. -/
structure MemStorage where
  users : JsMap User
  dateOptions : JsMap DateOption
  subscriptions : JsMap Subscription
  currentUserId : Nat
  currentDateOptionId : Nat
  currentSubscriptionId : Nat
deriving DecidableEq, Repr

/-- The seed rows of `initializeDefaultOptions`, without their ids. -/
structure DefaultOption where
  label : String
  weight : Int
  color : String
  isDefault : Bool
deriving DecidableEq, Repr

/-- The array `defaultOptions` of `initializeDefaultOptions`. -/
def defaultOptions : List DefaultOption :=
  [ { label := "Movie Night", weight := 1, color := "#D4A574", isDefault := true },
    { label := "Candlelight Dinner", weight := 1, color := "#E8C5A0", isDefault := true },
    { label := "Board Game & Wine", weight := 1, color := "#C8956D", isDefault := true },
    { label := "Stargazing", weight := 1, color := "#B8926A", isDefault := true },
    { label := "Cook Together", weight := 1, color := "#DBA995", isDefault := true } ]

namespace MemStorage

/-- The body of the `forEach` callback of `initializeDefaultOptions`. -/
def seedOne (s : MemStorage) (option : DefaultOption) : MemStorage :=
  let id := s.currentDateOptionId
  let dateOption : DateOption :=
    { id := id, label := option.label, weight := option.weight, color := option.color,
      isDefault := option.isDefault }
  { s with
    currentDateOptionId := id + 1
    dateOptions := s.dateOptions.set (JsNumber.int id) dateOption }

/-- `initializeDefaultOptions()`. -/
def initializeDefaultOptions (s : MemStorage) : MemStorage :=
  defaultOptions.foldl seedOne s

/-- `new MemStorage()`. -/
def constructor : MemStorage :=
  initializeDefaultOptions
    { users := JsMap.empty
      dateOptions := JsMap.empty
      subscriptions := JsMap.empty
      currentUserId := 1
      currentDateOptionId := 1
      currentSubscriptionId := 1 }

/-- `getUser(id)`. -/
def getUser (s : MemStorage) (id : JsNumber) : Option User := s.users.get id

/-- `getUserByUsername(username)`. -/
def getUserByUsername (s : MemStorage) (username : String) : Option User :=
  s.users.values.find? (fun user => decide (user.username = username))

/-- `createUser(insertUser)`. -/
def createUser (s : MemStorage) (insertUser : InsertUser) : MemStorage × User :=
  let id := s.currentUserId
  let user : User := { id := id, username := insertUser.username, password := insertUser.password }
  ({ s with currentUserId := id + 1, users := s.users.set (JsNumber.int id) user }, user)

/-- `getAllDateOptions()`. -/
def getAllDateOptions (s : MemStorage) : List DateOption := s.dateOptions.values

/-- `createDateOption(insertOption)`. -/
def createDateOption (s : MemStorage) (insertOption : InsertDateOption) :
    MemStorage × DateOption :=
  let id := s.currentDateOptionId
  let option : DateOption :=
    { id := id, label := insertOption.label, weight := insertOption.weight,
      color := insertOption.color, isDefault := false }
  ({ s with
     currentDateOptionId := id + 1
     dateOptions := s.dateOptions.set (JsNumber.int id) option }, option)

/-- The object spread `{ ...existing, ...updateData }`. -/
def spread (existing : DateOption) (updateData : UpdateDateOption) : DateOption :=
  { id := existing.id
    label := match updateData.label with
      | some v => v
      | none => existing.label
    weight := match updateData.weight with
      | some v => v
      | none => existing.weight
    color := match updateData.color with
      | some v => v
      | none => existing.color
    isDefault := existing.isDefault }

/-- `updateDateOption(id, updateData)`; `none` stands for `undefined`. -/
def updateDateOption (s : MemStorage) (id : JsNumber) (updateData : UpdateDateOption) :
    MemStorage × Option DateOption :=
  match s.dateOptions.get id with
  | none => (s, none)
  | some existing =>
    let updated := spread existing updateData
    ({ s with dateOptions := s.dateOptions.set id updated }, some updated)

/-- `deleteDateOption(id)`. -/
def deleteDateOption (s : MemStorage) (id : JsNumber) : MemStorage × Bool :=
  let r := s.dateOptions.delete id
  ({ s with dateOptions := r.1 }, r.2)

/-- `createSubscription(insertSubscription)`. -/
def createSubscription (s : MemStorage) (insertSubscription : InsertSubscription) :
    MemStorage × Subscription :=
  let id := s.currentSubscriptionId
  let subscription : Subscription :=
    { id := id, name := insertSubscription.name, email := insertSubscription.email }
  ({ s with
     currentSubscriptionId := id + 1
     subscriptions := s.subscriptions.set (JsNumber.int id) subscription }, subscription)

/-- `getSubscriptionByEmail(email)`. -/
def getSubscriptionByEmail (s : MemStorage) (email : String) : Option Subscription :=
  s.subscriptions.values.find? (fun sub => decide (sub.email = email))

end MemStorage

/-! ## Requests and responses (`server/routes.ts`) -/

/-- The bodies the handlers send; `ε` is the type of `error.errors` of a `ZodError`. -/
inductive ResponseBody (ε : Type) where
  | dateOptions (options : List DateOption)
  | dateOption (option : DateOption)
  | subscription (subscription : Subscription)
  | message (message : String)
  | invalid (message : String) (errors : ε)
  | empty
deriving DecidableEq, Repr

/-- A response: the status code and what was sent. -/
structure Response (ε : Type) where
  status : Nat
  body : ResponseBody ε
deriving DecidableEq, Repr

/-- The zod schemas the routes use, each as the function `schema.parse`: `Except.error`
carries the `errors` of the thrown `ZodError`. `β` is the type of `req.body`. -/
structure Schemas (β ε : Type) where
  insertDateOptionSchema : β → Except ε InsertDateOption
  partialDateOptionSchema : β → Except ε UpdateDateOption
  insertSubscriptionSchema : β → Except ε InsertSubscription

section Handlers

variable {β ε : Type}

/-- `GET /api/date-options`. -/
def getDateOptionsHandler (s : MemStorage) : MemStorage × Response ε :=
  (s, ⟨200, ResponseBody.dateOptions s.getAllDateOptions⟩)

/-- `POST /api/date-options`. -/
def postDateOptionsHandler (schemas : Schemas β ε) (s : MemStorage) (body : β) :
    MemStorage × Response ε :=
  match schemas.insertDateOptionSchema body with
  | Except.error errors => (s, ⟨400, ResponseBody.invalid "Invalid data" errors⟩)
  | Except.ok validatedData =>
    let r := s.createDateOption validatedData
    (r.1, ⟨201, ResponseBody.dateOption r.2⟩)

/-- `PATCH /api/date-options/:id`; `idParam` is `req.params.id`. -/
def patchDateOptionHandler (schemas : Schemas β ε) (s : MemStorage) (idParam : String)
    (body : β) : MemStorage × Response ε :=
  let id := parseInt idParam
  match schemas.partialDateOptionSchema body with
  | Except.error errors => (s, ⟨400, ResponseBody.invalid "Invalid data" errors⟩)
  | Except.ok validatedData =>
    match s.updateDateOption id validatedData with
    | (s1, none) => (s1, ⟨404, ResponseBody.message "Date option not found"⟩)
    | (s1, some option) => (s1, ⟨200, ResponseBody.dateOption option⟩)

/-- `DELETE /api/date-options/:id`; `idParam` is `req.params.id`. -/
def deleteDateOptionHandler (s : MemStorage) (idParam : String) : MemStorage × Response ε :=
  let id := parseInt idParam
  match s.deleteDateOption id with
  | (s1, false) => (s1, ⟨404, ResponseBody.message "Date option not found"⟩)
  | (s1, true) => (s1, ⟨204, ResponseBody.empty⟩)

/-- `POST /api/subscriptions`. -/
def postSubscriptionsHandler (schemas : Schemas β ε) (s : MemStorage) (body : β) :
    MemStorage × Response ε :=
  match schemas.insertSubscriptionSchema body with
  | Except.error errors => (s, ⟨400, ResponseBody.invalid "Invalid data" errors⟩)
  | Except.ok validatedData =>
    match s.getSubscriptionByEmail validatedData.email with
    | some _ => (s, ⟨409, ResponseBody.message "Email already subscribed"⟩)
    | none =>
      let r := s.createSubscription validatedData
      (r.1, ⟨201, ResponseBody.subscription r.2⟩)

/-- The store after a sequence of `POST /api/subscriptions` requests. -/
def postSubscriptionsAll (schemas : Schemas β ε) (s : MemStorage) (bodies : List β) :
    MemStorage :=
  bodies.foldl (fun st body => (postSubscriptionsHandler schemas st body).1) s

end Handlers

/-! ## A concrete validator -/

/-- A property value of a JSON request body: a string, an integer, or anything else
(`null`, a boolean, a fraction, an array, an object). -/
inductive JsonValue where
  | str (s : String)
  | int (n : Int)
  | other
deriving DecidableEq, Repr

/-- A JSON object as `req.body`: its properties. -/
abbrev RequestBody := List (String × JsonValue)

/-- One entry of `ZodError.errors`: the field and what is wrong with it. -/
structure ZodIssue where
  path : String
  message : String
deriving DecidableEq, Repr

/-- Modelled from the spec: a required string field of a zod object schema (the zod
library is not part of the repository). -/
def zodString (body : RequestBody) (field : String) : Except ZodIssue String :=
  match body.lookup field with
  | some (JsonValue.str s) => Except.ok s
  | some _ => Except.error ⟨field, "Expected string"⟩
  | none => Except.error ⟨field, "Required"⟩

/-- Modelled from the spec: a required integer field of a zod object schema. -/
def zodInteger (body : RequestBody) (field : String) : Except ZodIssue Int :=
  match body.lookup field with
  | some (JsonValue.int n) => Except.ok n
  | some _ => Except.error ⟨field, "Expected integer"⟩
  | none => Except.error ⟨field, "Required"⟩

/-- Modelled from the spec: `.optional()` on a field, an absent field is accepted. -/
def zodOptional {α : Type} (body : RequestBody) (field : String)
    (r : Except ZodIssue α) : Except ZodIssue (Option α) :=
  match body.lookup field with
  | none => Except.ok none
  | some _ => r.map some

/-- The issues of one field. -/
def zodIssues {α : Type} : Except ZodIssue α → List ZodIssue
  | Except.error e => [e]
  | Except.ok _ => []

/-- Modelled from the spec: `insertDateOptionSchema.parse`, the schema
`{label: required string, weight: required integer, color: required string}`. -/
def zodInsertDateOption (body : RequestBody) : Except (List ZodIssue) InsertDateOption :=
  match zodString body "label", zodInteger body "weight", zodString body "color" with
  | Except.ok label, Except.ok weight, Except.ok color => Except.ok ⟨label, weight, color⟩
  | rl, rw, rc => Except.error (zodIssues rl ++ zodIssues rw ++ zodIssues rc)

/-- Modelled from the spec: `insertDateOptionSchema.partial().parse`, the create schema
with every field optional. -/
def zodPartialDateOption (body : RequestBody) : Except (List ZodIssue) UpdateDateOption :=
  match zodOptional body "label" (zodString body "label"),
    zodOptional body "weight" (zodInteger body "weight"),
    zodOptional body "color" (zodString body "color") with
  | Except.ok label, Except.ok weight, Except.ok color => Except.ok ⟨label, weight, color⟩
  | rl, rw, rc => Except.error (zodIssues rl ++ zodIssues rw ++ zodIssues rc)

/-- Modelled from the spec: `insertSubscriptionSchema.parse`, the schema
`{name: required string, email: required string}`. -/
def zodInsertSubscription (body : RequestBody) : Except (List ZodIssue) InsertSubscription :=
  match zodString body "name", zodString body "email" with
  | Except.ok name, Except.ok email => Except.ok ⟨name, email⟩
  | rn, re => Except.error (zodIssues rn ++ zodIssues re)

/-- The schemas of `shared/schema.ts` as modelled above. -/
def zodSchemas : Schemas RequestBody (List ZodIssue) :=
  { insertDateOptionSchema := zodInsertDateOption
    partialDateOptionSchema := zodPartialDateOption
    insertSubscriptionSchema := zodInsertSubscription }

/-! ## Sequences of store operations -/

/-- A call of one of the state-changing methods of `MemStorage`. -/
inductive StoreOp where
  | createUser (insertUser : InsertUser)
  | createDateOption (insertOption : InsertDateOption)
  | updateDateOption (id : JsNumber) (updateData : UpdateDateOption)
  | deleteDateOption (id : JsNumber)
  | createSubscription (insertSubscription : InsertSubscription)
deriving DecidableEq, Repr

/-- The store after the call. -/
def StoreOp.apply (s : MemStorage) : StoreOp → MemStorage
  | StoreOp.createUser d => (s.createUser d).1
  | StoreOp.createDateOption d => (s.createDateOption d).1
  | StoreOp.updateDateOption id d => (s.updateDateOption id d).1
  | StoreOp.deleteDateOption id => (s.deleteDateOption id).1
  | StoreOp.createSubscription d => (s.createSubscription d).1

/-- The stores a program can hold: the freshly constructed one and whatever method
calls make of it. -/
inductive Reachable : MemStorage → Prop where
  | fresh : Reachable MemStorage.constructor
  | call (s : MemStorage) (op : StoreOp) (h : Reachable s) : Reachable (op.apply s)

/-! ## Invariants of reachable stores -/

/-- Every key of the map is a natural number below the counter `c`. -/
def JsMap.KeysBelow {α : Type} (m : JsMap α) (c : Nat) : Prop :=
  ∀ k ∈ m.keys, ∃ n : Nat, k = JsNumber.int n ∧ n < c

/-- In each collection every key is a natural number below the collection's counter. -/
def MemStorage.Inv (s : MemStorage) : Prop :=
  s.users.KeysBelow s.currentUserId ∧
  s.dateOptions.KeysBelow s.currentDateOptionId ∧
  s.subscriptions.KeysBelow s.currentSubscriptionId

/-- The subscriptions collection as the POST handler keeps it: keys and record ids below
the counter, ids pairwise distinct, emails pairwise distinct. -/
def MemStorage.SubscriptionsInv (s : MemStorage) : Prop :=
  s.subscriptions.KeysBelow s.currentSubscriptionId ∧
  (∀ sub ∈ s.subscriptions.values, sub.id < s.currentSubscriptionId) ∧
  (s.subscriptions.values.map (fun sub => sub.id)).Nodup ∧
  (s.subscriptions.values.map (fun sub => sub.email)).Nodup

/-! ## Lemmas on maps -/

namespace JsMap

variable {α : Type}

theorem has_eq_true_iff (m : JsMap α) (k : JsNumber) : m.has k = true ↔ k ∈ m.keys := by
  simp [has, keys]

theorem has_eq_false_iff (m : JsMap α) (k : JsNumber) : m.has k = false ↔ k ∉ m.keys := by
  rw [← has_eq_true_iff]; simp

theorem get_eq_none_iff (m : JsMap α) (k : JsNumber) : m.get k = none ↔ m.has k = false := by
  simp [get, has]

theorem has_of_get_eq_some {m : JsMap α} {k : JsNumber} {v : α} (h : m.get k = some v) :
    m.has k = true := by
  cases hh : m.has k
  · rw [← get_eq_none_iff] at hh; rw [hh] at h; cases h
  · rfl

theorem set_of_has {m : JsMap α} {k : JsNumber} (v : α) (h : m.has k = true) :
    m.set k v = ⟨m.entries.map (fun e => if e.1 = k then (k, v) else e)⟩ := by
  simp [set, h]

theorem set_of_not_has {m : JsMap α} {k : JsNumber} (v : α) (h : m.has k = false) :
    m.set k v = ⟨m.entries ++ [(k, v)]⟩ := by
  simp [set, h]

theorem keys_set_of_has {m : JsMap α} {k : JsNumber} (v : α) (h : m.has k = true) :
    (m.set k v).keys = m.keys := by
  rw [set_of_has v h]
  simp only [keys, List.map_map]
  apply List.map_congr_left
  intro e _
  by_cases he : e.1 = k <;> simp [he]

theorem get_set_self (m : JsMap α) (k : JsNumber) (v : α) : (m.set k v).get k = some v := by
  cases h : m.has k
  · rw [set_of_not_has v h]
    have h2 : ∀ e ∈ m.entries, ¬ e.1 = k := by
      simpa [has] using h
    simp only [get]
    rw [List.find?_append]
    have : List.find? (fun e => decide (e.1 = k)) m.entries = none := by
      simp [List.find?_eq_none]; intro a b hab; exact h2 (a, b) hab
    simp [this]
  · rw [set_of_has v h]
    obtain ⟨m⟩ := m
    simp only [has] at h
    simp only [get]
    induction m with
    | nil => simp at h
    | cons e t ih =>
      by_cases he : e.1 = k
      · simp [he]
      · have ht : t.any (fun e => decide (e.1 = k)) = true := by
          simpa [he] using h
        simp only [List.map_cons, he, if_false]
        rw [List.find?_cons_of_neg _ (by simpa using he)]
        exact ih ht

theorem get_set_of_ne (m : JsMap α) {k k1 : JsNumber} (v : α) (h : k1 ≠ k) :
    (m.set k v).get k1 = m.get k1 := by
  obtain ⟨m⟩ := m
  cases hk : (JsMap.mk m).has k
  · rw [set_of_not_has v hk]
    simp only [get]
    rw [List.find?_append]
    have : List.find? (fun e => decide (e.1 = k1)) [(k, v)] = none := by
      simp [Ne.symm h]
    rw [this]; simp
  · rw [set_of_has v hk]
    simp only [get]
    clear hk
    induction m with
    | nil => rfl
    | cons e t ih =>
      by_cases he : e.1 = k
      · have he1 : ¬ e.1 = k1 := fun h1 => h (h1.symm.trans he)
        simp only [List.map_cons, he, if_true]
        rw [List.find?_cons_of_neg _ (by simpa using Ne.symm h),
          List.find?_cons_of_neg _ (by simpa using he1)]
        exact ih
      · simp only [List.map_cons, he, if_false]
        by_cases he1 : e.1 = k1
        · simp [he1]
        · rw [List.find?_cons_of_neg _ (by simpa using he1),
            List.find?_cons_of_neg _ (by simpa using he1)]
          exact ih

theorem has_delete_self (m : JsMap α) (k : JsNumber) : (m.delete k).1.has k = false := by
  simp [delete, has]

theorem get_delete_self (m : JsMap α) (k : JsNumber) : (m.delete k).1.get k = none := by
  rw [get_eq_none_iff]; exact has_delete_self m k

theorem get_delete_of_ne (m : JsMap α) {k k1 : JsNumber} (h : k1 ≠ k) :
    (m.delete k).1.get k1 = m.get k1 := by
  obtain ⟨m⟩ := m
  simp only [delete, get]
  induction m with
  | nil => rfl
  | cons e t ih =>
    by_cases he : e.1 = k
    · have he1 : ¬ e.1 = k1 := fun h1 => h (h1.symm.trans he)
      rw [List.filter_cons_of_neg (by simpa using he),
        List.find?_cons_of_neg _ (by simpa using he1)]
      exact ih
    · rw [List.filter_cons_of_pos (by simpa using he)]
      by_cases he1 : e.1 = k1
      · simp [he1]
      · rw [List.find?_cons_of_neg _ (by simpa using he1),
          List.find?_cons_of_neg _ (by simpa using he1)]
        exact ih

theorem delete_of_not_has {m : JsMap α} {k : JsNumber} (h : m.has k = false) :
    (m.delete k).1 = m := by
  obtain ⟨m⟩ := m
  simp only [delete]
  congr 1
  rw [List.filter_eq_self]
  intro e he
  have h2 : ∀ e ∈ m, ¬ e.1 = k := by simpa [has] using h
  simpa using h2 e he

theorem keysBelow_empty (c : Nat) : (JsMap.empty : JsMap α).KeysBelow c := by
  intro k hk; simp [keys, empty] at hk

theorem KeysBelow.mono {m : JsMap α} {c d : Nat} (h : m.KeysBelow c) (hcd : c ≤ d) :
    m.KeysBelow d := by
  intro k hk
  obtain ⟨n, hn, hlt⟩ := h k hk
  exact ⟨n, hn, lt_of_lt_of_le hlt hcd⟩

theorem KeysBelow.not_has_counter {m : JsMap α} {c : Nat} (h : m.KeysBelow c) :
    m.has (JsNumber.int c) = false := by
  rw [has_eq_false_iff]
  intro hk
  obtain ⟨n, hn, hlt⟩ := h _ hk
  injection hn with hn
  have : c = n := by exact_mod_cast hn
  omega

theorem KeysBelow.not_has_nan {m : JsMap α} {c : Nat} (h : m.KeysBelow c) :
    m.has JsNumber.nan = false := by
  rw [has_eq_false_iff]
  intro hk
  obtain ⟨n, hn, _⟩ := h _ hk
  cases hn

theorem KeysBelow.set_counter {m : JsMap α} {c : Nat} (h : m.KeysBelow c) (v : α) :
    (m.set (JsNumber.int c) v).KeysBelow (c + 1) := by
  rw [set_of_not_has v h.not_has_counter]
  intro k hk
  simp only [keys, List.map_append, List.map_cons, List.map_nil, List.mem_append,
    List.mem_singleton] at hk
  rcases hk with hk | hk
  · obtain ⟨n, hn, hlt⟩ := h k hk
    exact ⟨n, hn, by omega⟩
  · exact ⟨c, hk, by omega⟩

theorem KeysBelow.set_has {m : JsMap α} {c : Nat} {k : JsNumber} (h : m.KeysBelow c) (v : α)
    (hk : m.has k = true) : (m.set k v).KeysBelow c := by
  intro k1 hk1
  rw [keys_set_of_has v hk] at hk1
  exact h k1 hk1

theorem KeysBelow.delete {m : JsMap α} {c : Nat} (h : m.KeysBelow c) (k : JsNumber) :
    (m.delete k).1.KeysBelow c := by
  intro k1 hk1
  apply h k1
  simp only [JsMap.delete, keys, List.mem_map] at hk1 ⊢
  obtain ⟨e, he, rfl⟩ := hk1
  exact ⟨e, (List.mem_filter.mp he).1, rfl⟩

theorem values_set_of_not_has {m : JsMap α} {k : JsNumber} (v : α) (h : m.has k = false) :
    (m.set k v).values = m.values ++ [v] := by
  rw [set_of_not_has v h]; simp [values]

theorem wf_empty : (JsMap.empty : JsMap α).WF := List.nodup_nil

theorem WF.afterSet {m : JsMap α} (h : m.WF) (k : JsNumber) (v : α) : (m.set k v).WF := by
  cases hk : m.has k
  · rw [set_of_not_has v hk]
    have hnot := (has_eq_false_iff m k).mp hk
    unfold WF keys at *
    rw [List.map_append, List.nodup_append]
    refine ⟨h, by simp, ?_⟩
    intro a ha1 ha2
    simp only [List.map_cons, List.map_nil, List.mem_singleton] at ha2
    exact hnot (ha2 ▸ ha1)
  · unfold WF
    rw [keys_set_of_has v hk]
    exact h

theorem WF.afterDelete {m : JsMap α} (h : m.WF) (k : JsNumber) : (m.delete k).1.WF :=
  List.Nodup.sublist (List.Sublist.map _ (List.filter_sublist _)) h

end JsMap

/-! ## Lemmas on reachable stores -/

namespace MemStorage

theorem inv_seedOne {s : MemStorage} (h : s.Inv) (o : DefaultOption) : (s.seedOne o).Inv :=
  ⟨h.1, h.2.1.set_counter _, h.2.2⟩

theorem inv_foldl_seedOne (l : List DefaultOption) :
    ∀ s : MemStorage, s.Inv → (l.foldl seedOne s).Inv := by
  induction l with
  | nil => intro s h; exact h
  | cons o t ih => intro s h; exact ih _ (inv_seedOne h o)

theorem inv_constructor : MemStorage.constructor.Inv :=
  inv_foldl_seedOne _ _ ⟨JsMap.keysBelow_empty _, JsMap.keysBelow_empty _, JsMap.keysBelow_empty _⟩

theorem inv_apply {s : MemStorage} (h : s.Inv) (op : StoreOp) : (op.apply s).Inv := by
  cases op with
  | createUser d => exact ⟨h.1.set_counter _, h.2.1, h.2.2⟩
  | createDateOption d => exact ⟨h.1, h.2.1.set_counter _, h.2.2⟩
  | updateDateOption id d =>
    show (s.updateDateOption id d).1.Inv
    unfold updateDateOption
    cases hg : s.dateOptions.get id with
    | none => exact h
    | some existing => exact ⟨h.1, h.2.1.set_has _ (JsMap.has_of_get_eq_some hg), h.2.2⟩
  | deleteDateOption id => exact ⟨h.1, h.2.1.delete _, h.2.2⟩
  | createSubscription d => exact ⟨h.1, h.2.1, h.2.2.set_counter _⟩

theorem inv_of_reachable {s : MemStorage} (h : Reachable s) : s.Inv := by
  induction h with
  | fresh => exact inv_constructor
  | call s op _ ih => exact inv_apply ih op

theorem wf_foldl_seedOne (l : List DefaultOption) :
    ∀ s : MemStorage, (s.users.WF ∧ s.dateOptions.WF ∧ s.subscriptions.WF) →
      ((l.foldl seedOne s).users.WF ∧ (l.foldl seedOne s).dateOptions.WF ∧
        (l.foldl seedOne s).subscriptions.WF) := by
  induction l with
  | nil => intro s h; exact h
  | cons o t ih => intro s h; exact ih _ ⟨h.1, h.2.1.afterSet _ _, h.2.2⟩

/-- In every reachable store each collection is a proper `Map`: no key occurs twice. -/
theorem wf_of_reachable {s : MemStorage} (h : Reachable s) :
    s.users.WF ∧ s.dateOptions.WF ∧ s.subscriptions.WF := by
  induction h with
  | fresh => exact wf_foldl_seedOne _ _ ⟨JsMap.wf_empty, JsMap.wf_empty, JsMap.wf_empty⟩
  | call s op _ ih =>
    cases op with
    | createUser d => exact ⟨ih.1.afterSet _ _, ih.2.1, ih.2.2⟩
    | createDateOption d => exact ⟨ih.1, ih.2.1.afterSet _ _, ih.2.2⟩
    | updateDateOption id d =>
      show (s.updateDateOption id d).1.users.WF ∧ (s.updateDateOption id d).1.dateOptions.WF ∧
        (s.updateDateOption id d).1.subscriptions.WF
      unfold updateDateOption
      cases s.dateOptions.get id with
      | none => exact ih
      | some existing => exact ⟨ih.1, ih.2.1.afterSet _ _, ih.2.2⟩
    | deleteDateOption id => exact ⟨ih.1, ih.2.1.afterDelete _, ih.2.2⟩
    | createSubscription d => exact ⟨ih.1, ih.2.1, ih.2.2.afterSet _ _⟩

end MemStorage

/-- The route handlers only act through the store's methods: they keep a reachable store
reachable. -/
theorem reachable_of_handlers {β ε : Type} (schemas : Schemas β ε) {s : MemStorage}
    (h : Reachable s) (idParam : String) (body : β) :
    Reachable (getDateOptionsHandler s : MemStorage × Response ε).1 ∧
    Reachable (postDateOptionsHandler schemas s body).1 ∧
    Reachable (patchDateOptionHandler schemas s idParam body).1 ∧
    Reachable (deleteDateOptionHandler s idParam : MemStorage × Response ε).1 ∧
    Reachable (postSubscriptionsHandler schemas s body).1 := by
  refine ⟨h, ?_, ?_, ?_, ?_⟩
  · unfold postDateOptionsHandler
    cases schemas.insertDateOptionSchema body with
    | error e => exact h
    | ok d => exact Reachable.call s (StoreOp.createDateOption d) h
  · unfold patchDateOptionHandler
    cases schemas.partialDateOptionSchema body with
    | error e => exact h
    | ok d =>
      have hr := Reachable.call s (StoreOp.updateDateOption (parseInt idParam) d) h
      change Reachable (s.updateDateOption (parseInt idParam) d).1 at hr
      simp only
      generalize s.updateDateOption (parseInt idParam) d = r at hr ⊢
      obtain ⟨s1, o⟩ := r
      cases o <;> exact hr
  · unfold deleteDateOptionHandler
    have hr := Reachable.call s (StoreOp.deleteDateOption (parseInt idParam)) h
    change Reachable (s.deleteDateOption (parseInt idParam)).1 at hr
    simp only
    generalize s.deleteDateOption (parseInt idParam) = r at hr ⊢
    obtain ⟨s1, b⟩ := r
    cases b <;> exact hr
  · unfold postSubscriptionsHandler
    cases schemas.insertSubscriptionSchema body with
    | error e => exact h
    | ok d =>
      simp only
      cases s.getSubscriptionByEmail d.email with
      | some existing => exact h
      | none => exact Reachable.call s (StoreOp.createSubscription d) h

/-- C6: `getAllDateOptions` on a freshly constructed store returns exactly five records, in
the order of ids 1, 2, 3, 4, 5, with the labels "Movie Night", "Candlelight Dinner",
"Board Game & Wine", "Stargazing", "Cook Together", each with weight 1 and
`isDefault = true`, and the next id to be assigned is 6. -/
theorem fresh_store_lists_five_seeds :
    (MemStorage.constructor.getAllDateOptions.map
        (fun o => (o.id, o.label, o.weight, o.isDefault)) =
      [ (1, "Movie Night", 1, true), (2, "Candlelight Dinner", 1, true),
        (3, "Board Game & Wine", 1, true), (4, "Stargazing", 1, true),
        (5, "Cook Together", 1, true) ]) ∧
    MemStorage.constructor.getAllDateOptions.length = 5 ∧
    MemStorage.constructor.dateOptions.keys =
      [JsNumber.int 1, JsNumber.int 2, JsNumber.int 3, JsNumber.int 4, JsNumber.int 5] ∧
    MemStorage.constructor.currentDateOptionId = 6 := by
  decide

/-! ## Update and delete -/

/-- C2: when a date option `existing` is stored under key `id`, `updateDateOption(id, data)`
returns and stores a record in which the fields present in `data` take the given values and
every other field (`id`, `isDefault`, and the fields absent from `data`) keeps its value;
with only `weight = 5` present the weight alone changes. Every other date option, the
order and number of the entries, the counters and the other collections are unchanged. -/
theorem updateDateOption_merges (s : MemStorage) (id : JsNumber) (existing : DateOption)
    (data : UpdateDateOption) (h : s.dateOptions.get id = some existing) :
    ∃ updated : DateOption,
      (s.updateDateOption id data).2 = some updated ∧
      (s.updateDateOption id data).1.dateOptions.get id = some updated ∧
      updated.id = existing.id ∧
      updated.isDefault = existing.isDefault ∧
      updated.label = data.label.getD existing.label ∧
      updated.weight = data.weight.getD existing.weight ∧
      updated.color = data.color.getD existing.color ∧
      (data = ⟨none, some 5, none⟩ → updated = { existing with weight := 5 }) ∧
      (∀ k, k ≠ id →
        (s.updateDateOption id data).1.dateOptions.get k = s.dateOptions.get k) ∧
      (s.updateDateOption id data).1.dateOptions.keys = s.dateOptions.keys ∧
      (s.updateDateOption id data).1.dateOptions.entries =
        s.dateOptions.entries.map (fun e => if e.1 = id then (id, updated) else e) ∧
      (s.updateDateOption id data).1.getAllDateOptions.length = s.getAllDateOptions.length ∧
      (s.updateDateOption id data).1.currentDateOptionId = s.currentDateOptionId ∧
      (s.updateDateOption id data).1.users = s.users ∧
      (s.updateDateOption id data).1.subscriptions = s.subscriptions ∧
      (s.updateDateOption id data).1.currentUserId = s.currentUserId ∧
      (s.updateDateOption id data).1.currentSubscriptionId = s.currentSubscriptionId := by
  have hhas : s.dateOptions.has id = true := JsMap.has_of_get_eq_some h
  have hu : s.updateDateOption id data =
      ({ s with dateOptions := s.dateOptions.set id (MemStorage.spread existing data) },
        some (MemStorage.spread existing data)) := by
    simp only [MemStorage.updateDateOption, h]
  refine ⟨MemStorage.spread existing data, ?_⟩
  rw [hu]
  refine ⟨rfl, JsMap.get_set_self _ _ _, rfl, rfl, ?_, ?_, ?_, ?_, ?_, ?_, ?_, ?_,
    rfl, rfl, rfl, rfl, rfl⟩
  · cases hl : data.label <;> simp [MemStorage.spread, hl]
  · cases hw : data.weight <;> simp [MemStorage.spread, hw]
  · cases hc : data.color <;> simp [MemStorage.spread, hc]
  · rintro rfl; rfl
  · intro k hk; exact JsMap.get_set_of_ne _ _ hk
  · exact JsMap.keys_set_of_has _ hhas
  · rw [JsMap.set_of_has _ hhas]
  · simp only [MemStorage.getAllDateOptions, JsMap.values, List.length_map]
    rw [JsMap.set_of_has _ hhas]
    simp

/-- The first seed record with its weight set to 5 and nothing else changed. -/
theorem updateDateOption_merges_witness :
    MemStorage.constructor.dateOptions.get (JsNumber.int 1) =
      some ⟨1, "Movie Night", 1, "#D4A574", true⟩ ∧
    (MemStorage.constructor.updateDateOption (JsNumber.int 1) ⟨none, some 5, none⟩).2 =
      some ⟨1, "Movie Night", 5, "#D4A574", true⟩ := by
  refine ⟨by decide, ?_⟩
  obtain ⟨updated, h1, _, _, _, _, _, _, h8, _⟩ :=
    updateDateOption_merges MemStorage.constructor (JsNumber.int 1)
      ⟨1, "Movie Night", 1, "#D4A574", true⟩ ⟨none, some 5, none⟩ (by decide)
  rw [h1, h8 rfl]

/-- C5: `deleteDateOption(id)` returns true exactly when a date option is stored under `id`;
afterwards nothing is stored under `id` and every other record is unchanged (the remaining
entries keep their order, the counters and other collections are untouched); an immediately
repeated `deleteDateOption(id)` returns false. The DELETE handler answers 204 with an empty
body when the store returned true and 404 when it returned false. -/
theorem deleteDateOption_spec (ε : Type) (s : MemStorage) (id : JsNumber) :
    ((s.deleteDateOption id).2 = true ↔ ∃ o, s.dateOptions.get id = some o) ∧
    (s.deleteDateOption id).1.dateOptions.get id = none ∧
    (∀ k, k ≠ id → (s.deleteDateOption id).1.dateOptions.get k = s.dateOptions.get k) ∧
    (s.deleteDateOption id).1.dateOptions.entries =
      s.dateOptions.entries.filter (fun e => !decide (e.1 = id)) ∧
    ((s.deleteDateOption id).1.deleteDateOption id).2 = false ∧
    (s.deleteDateOption id).1.currentDateOptionId = s.currentDateOptionId ∧
    (s.deleteDateOption id).1.users = s.users ∧
    (s.deleteDateOption id).1.subscriptions = s.subscriptions ∧
    (∀ idParam : String, parseInt idParam = id →
      ((s.deleteDateOption id).2 = true →
        (deleteDateOptionHandler s idParam : MemStorage × Response ε) =
          ((s.deleteDateOption id).1, ⟨204, ResponseBody.empty⟩)) ∧
      ((s.deleteDateOption id).2 = false →
        (deleteDateOptionHandler s idParam : MemStorage × Response ε) =
          ((s.deleteDateOption id).1, ⟨404, ResponseBody.message "Date option not found"⟩))) := by
  refine ⟨?_, JsMap.get_delete_self _ _, fun k hk => JsMap.get_delete_of_ne _ hk, rfl,
    JsMap.has_delete_self _ _, rfl, rfl, rfl, ?_⟩
  · show s.dateOptions.has id = true ↔ _
    constructor
    · intro hh
      cases hg : s.dateOptions.get id with
      | none => rw [JsMap.get_eq_none_iff] at hg; rw [hg] at hh; cases hh
      | some o => exact ⟨o, rfl⟩
    · rintro ⟨o, ho⟩; exact JsMap.has_of_get_eq_some ho
  · intro idParam hp
    constructor
    · intro hd
      simp only [deleteDateOptionHandler, hp]
      generalize s.deleteDateOption id = r at hd ⊢
      obtain ⟨s1, b⟩ := r
      simp only at hd; subst hd; rfl
    · intro hd
      simp only [deleteDateOptionHandler, hp]
      generalize s.deleteDateOption id = r at hd ⊢
      obtain ⟨s1, b⟩ := r
      simp only at hd; subst hd; rfl

/-- C8: when nothing is stored under `id`, `updateDateOption(id, data)` returns the absence
value and leaves the whole store (collection and counters) as it was, and the PATCH handler
called with a path parameter parsing to `id` and a body the partial schema accepts as `data`
answers 404 and leaves the store as it was. -/
theorem updateDateOption_unknown_id {β ε : Type} (schemas : Schemas β ε) (s : MemStorage)
    (id : JsNumber) (data : UpdateDateOption) (h : s.dateOptions.get id = none) :
    s.updateDateOption id data = (s, none) ∧
    ∀ (idParam : String) (body : β), parseInt idParam = id →
      schemas.partialDateOptionSchema body = Except.ok data →
      patchDateOptionHandler schemas s idParam body =
        (s, ⟨404, ResponseBody.message "Date option not found"⟩) := by
  have h1 : s.updateDateOption id data = (s, none) := by
    simp only [MemStorage.updateDateOption, h]
  refine ⟨h1, ?_⟩
  intro idParam body hp hb
  simp only [patchDateOptionHandler, hp, hb, h1]

/-- The id 9999 is unknown to the fresh store: the PATCH is answered 404. -/
theorem updateDateOption_unknown_id_witness :
    MemStorage.constructor.dateOptions.get (JsNumber.int 9999) = none ∧
    patchDateOptionHandler zodSchemas MemStorage.constructor "9999"
        [("weight", JsonValue.int 5)] =
      (MemStorage.constructor, ⟨404, ResponseBody.message "Date option not found"⟩) :=
  ⟨by decide,
    (updateDateOption_unknown_id zodSchemas MemStorage.constructor (JsNumber.int 9999)
      ⟨none, some 5, none⟩ (by decide)).2 "9999" [("weight", JsonValue.int 5)]
      (by decide) rfl⟩

/-! ## Validation failures -/

/-- C7: when the create schema rejects the request body, the POST /api/date-options handler
answers 400 with the message "Invalid data" and the validator's errors, and the store is
unchanged: same listing, same id counter, no record created. -/
theorem postDateOptions_invalid_body {β ε : Type} (schemas : Schemas β ε) (s : MemStorage)
    (body : β) (errors : ε) (h : schemas.insertDateOptionSchema body = Except.error errors) :
    postDateOptionsHandler schemas s body =
      (s, ⟨400, ResponseBody.invalid "Invalid data" errors⟩) ∧
    (postDateOptionsHandler schemas s body).1.getAllDateOptions = s.getAllDateOptions ∧
    (postDateOptionsHandler schemas s body).1.currentDateOptionId = s.currentDateOptionId := by
  have h1 : postDateOptionsHandler schemas s body =
      (s, ⟨400, ResponseBody.invalid "Invalid data" errors⟩) := by
    simp only [postDateOptionsHandler, h]
  rw [h1]
  exact ⟨rfl, rfl, rfl⟩

/-- A body without `label` is rejected with 400 and the fresh store keeps its five records. -/
theorem postDateOptions_invalid_body_witness :
    zodSchemas.insertDateOptionSchema
        [("weight", JsonValue.int 2), ("color", JsonValue.str "#ABCDEF")] =
      Except.error [⟨"label", "Required"⟩] ∧
    (postDateOptionsHandler zodSchemas MemStorage.constructor
        [("weight", JsonValue.int 2), ("color", JsonValue.str "#ABCDEF")]).2.status = 400 ∧
    (postDateOptionsHandler zodSchemas MemStorage.constructor
        [("weight", JsonValue.int 2), ("color", JsonValue.str "#ABCDEF")]).1.getAllDateOptions.length
      = 5 := by
  have h := postDateOptions_invalid_body zodSchemas MemStorage.constructor
    [("weight", JsonValue.int 2), ("color", JsonValue.str "#ABCDEF")]
    [⟨"label", "Required"⟩] rfl
  refine ⟨rfl, ?_, ?_⟩
  · rw [h.1]
  · rw [h.2.1]; decide

/-! ## Creation -/

theorem getSubscriptionByEmail_eq_none_iff (s : MemStorage) (email : String) :
    s.getSubscriptionByEmail email = none ↔
      ∀ sub ∈ s.subscriptions.values, sub.email ≠ email := by
  simp [MemStorage.getSubscriptionByEmail, List.find?_eq_none]

/-- C4: in a reachable store, for a body the subscription schema accepts as `data`: if some
stored subscription has exactly the email of `data`, the POST /api/subscriptions handler
answers 409 and leaves the store (collection and counter) unchanged; otherwise it answers
201 with the created record, whose id is the counter before the call, and the collection is
the previous one with exactly that record appended. -/
theorem postSubscriptions_conflict_or_created {β ε : Type} (schemas : Schemas β ε)
    (s : MemStorage) (body : β) (data : InsertSubscription) (hs : Reachable s)
    (hb : schemas.insertSubscriptionSchema body = Except.ok data) :
    ((∃ sub ∈ s.subscriptions.values, sub.email = data.email) →
      postSubscriptionsHandler schemas s body =
        (s, ⟨409, ResponseBody.message "Email already subscribed"⟩)) ∧
    ((∀ sub ∈ s.subscriptions.values, sub.email ≠ data.email) →
      (postSubscriptionsHandler schemas s body).2 =
        ⟨201, ResponseBody.subscription
          ⟨s.currentSubscriptionId, data.name, data.email⟩⟩ ∧
      (postSubscriptionsHandler schemas s body).1.subscriptions.values =
        s.subscriptions.values ++ [⟨s.currentSubscriptionId, data.name, data.email⟩] ∧
      (postSubscriptionsHandler schemas s body).1.currentSubscriptionId =
        s.currentSubscriptionId + 1) := by
  constructor
  · rintro ⟨sub, hsub, hemail⟩
    cases hg : s.getSubscriptionByEmail data.email with
    | none =>
      exact absurd hemail ((getSubscriptionByEmail_eq_none_iff s data.email).mp hg sub hsub)
    | some existing => simp only [postSubscriptionsHandler, hb, hg]
  · intro hnone
    have hg : s.getSubscriptionByEmail data.email = none :=
      (getSubscriptionByEmail_eq_none_iff s data.email).mpr hnone
    have hinv := MemStorage.inv_of_reachable hs
    simp only [postSubscriptionsHandler, hb, hg]
    exact ⟨rfl, JsMap.values_set_of_not_has _ hinv.2.2.not_has_counter, rfl⟩

/-- The first subscription for an email is answered 201 with record 1; a second request with
the same email is answered 409 and the store stays as it was. -/
theorem postSubscriptions_conflict_or_created_witness :
    Reachable MemStorage.constructor ∧
    (postSubscriptionsHandler zodSchemas MemStorage.constructor
        [("name", JsonValue.str "Ann"), ("email", JsonValue.str "ann@example.com")]).2 =
      ⟨201, ResponseBody.subscription ⟨1, "Ann", "ann@example.com"⟩⟩ ∧
    Reachable (MemStorage.constructor.createSubscription ⟨"Ann", "ann@example.com"⟩).1 ∧
    postSubscriptionsHandler zodSchemas
        (MemStorage.constructor.createSubscription ⟨"Ann", "ann@example.com"⟩).1
        [("name", JsonValue.str "Bob"), ("email", JsonValue.str "ann@example.com")] =
      ((MemStorage.constructor.createSubscription ⟨"Ann", "ann@example.com"⟩).1,
        ⟨409, ResponseBody.message "Email already subscribed"⟩) :=
  ⟨Reachable.fresh,
    ((postSubscriptions_conflict_or_created zodSchemas MemStorage.constructor
      [("name", JsonValue.str "Ann"), ("email", JsonValue.str "ann@example.com")]
      ⟨"Ann", "ann@example.com"⟩ Reachable.fresh rfl).2 (by decide)).1,
    Reachable.call _ (StoreOp.createSubscription ⟨"Ann", "ann@example.com"⟩) Reachable.fresh,
    (postSubscriptions_conflict_or_created zodSchemas
      (MemStorage.constructor.createSubscription ⟨"Ann", "ann@example.com"⟩).1
      [("name", JsonValue.str "Bob"), ("email", JsonValue.str "ann@example.com")]
      ⟨"Bob", "ann@example.com"⟩
      (Reachable.call _ (StoreOp.createSubscription ⟨"Ann", "ann@example.com"⟩)
        Reachable.fresh)
      rfl).1 ⟨⟨1, "Ann", "ann@example.com"⟩, by decide, rfl⟩⟩

theorem subscriptionsInv_constructor : MemStorage.constructor.SubscriptionsInv := by
  have h1 : MemStorage.constructor.subscriptions = JsMap.empty := by decide
  refine ⟨MemStorage.inv_constructor.2.2, ?_, ?_, ?_⟩ <;> rw [h1] <;>
    simp [JsMap.values, JsMap.empty]

theorem subscriptionsInv_postSubscriptionsHandler {β ε : Type} (schemas : Schemas β ε)
    (s : MemStorage) (body : β) (h : s.SubscriptionsInv) :
    (postSubscriptionsHandler schemas s body).1.SubscriptionsInv := by
  cases hb : schemas.insertSubscriptionSchema body with
  | error errors =>
    have he : (postSubscriptionsHandler schemas s body).1 = s := by
      simp only [postSubscriptionsHandler, hb]
    rw [he]; exact h
  | ok data =>
    cases hg : s.getSubscriptionByEmail data.email with
    | some existing =>
      have he : (postSubscriptionsHandler schemas s body).1 = s := by
        simp only [postSubscriptionsHandler, hb, hg]
      rw [he]; exact h
    | none =>
      have he : (postSubscriptionsHandler schemas s body).1 = (s.createSubscription data).1 := by
        simp only [postSubscriptionsHandler, hb, hg]
      rw [he]
      obtain ⟨hk, hlt, hid, hem⟩ := h
      have hne := (getSubscriptionByEmail_eq_none_iff s data.email).mp hg
      have hv : (s.createSubscription data).1.subscriptions.values =
          s.subscriptions.values ++ [⟨s.currentSubscriptionId, data.name, data.email⟩] :=
        JsMap.values_set_of_not_has _ hk.not_has_counter
      have hc : (s.createSubscription data).1.currentSubscriptionId =
          s.currentSubscriptionId + 1 := rfl
      refine ⟨hk.set_counter _, ?_, ?_, ?_⟩
      · intro sub hsub
        rw [hv] at hsub
        rw [hc]
        rcases List.mem_append.mp hsub with h1 | h1
        · exact Nat.lt_succ_of_lt (hlt sub h1)
        · rw [List.mem_singleton.mp h1]; exact Nat.lt_succ_self _
      · rw [hv, List.map_append, List.nodup_append]
        refine ⟨hid, by simp, ?_⟩
        intro a ha1 ha2
        simp only [List.map_cons, List.map_nil, List.mem_singleton] at ha2
        obtain ⟨sub, hsub, rfl⟩ := List.mem_map.mp ha1
        have := hlt sub hsub
        omega
      · rw [hv, List.map_append, List.nodup_append]
        refine ⟨hem, by simp, ?_⟩
        intro a ha1 ha2
        simp only [List.map_cons, List.map_nil, List.mem_singleton] at ha2
        obtain ⟨sub, hsub, rfl⟩ := List.mem_map.mp ha1
        exact hne sub hsub ha2

theorem subscriptionsInv_postSubscriptionsAll {β ε : Type} (schemas : Schemas β ε)
    (bodies : List β) :
    ∀ s : MemStorage, s.SubscriptionsInv →
      (postSubscriptionsAll schemas s bodies).SubscriptionsInv := by
  induction bodies with
  | nil => intro s h; exact h
  | cons b t ih =>
    intro s h
    exact ih _ (subscriptionsInv_postSubscriptionsHandler schemas s b h)

/-- C10: in every state reached from a freshly constructed store by a finite sequence of
POST /api/subscriptions requests with arbitrary bodies (and whatever the schema decides
about them), the stored subscriptions have pairwise distinct emails and pairwise distinct
ids, and every stored id is less than `currentSubscriptionId`. -/
theorem postSubscriptions_emails_and_ids_distinct {β ε : Type} (schemas : Schemas β ε)
    (bodies : List β) :
    ((postSubscriptionsAll schemas MemStorage.constructor bodies).subscriptions.values.map
      (fun sub => sub.email)).Nodup ∧
    ((postSubscriptionsAll schemas MemStorage.constructor bodies).subscriptions.values.map
      (fun sub => sub.id)).Nodup ∧
    (∀ sub ∈ (postSubscriptionsAll schemas MemStorage.constructor bodies).subscriptions.values,
      sub.id < (postSubscriptionsAll schemas
        MemStorage.constructor bodies).currentSubscriptionId) := by
  obtain ⟨_, hlt, hid, hem⟩ :=
    subscriptionsInv_postSubscriptionsAll schemas bodies _ subscriptionsInv_constructor
  exact ⟨hem, hid, hlt⟩

/-! ## Malformed id path parameters -/

theorem not_isRadixDigit_ten (c : Char) (h : ¬ (48 ≤ c.toNat ∧ c.toNat ≤ 57)) :
    isRadixDigit 10 c = false := by
  unfold isRadixDigit digitValue
  simp only [h, if_false]
  split_ifs <;> simp

theorem stripSign_subset (s : List Char) : ∀ c ∈ (stripSign s).2, c ∈ s := by
  intro c hc
  unfold stripSign at hc
  split at hc
  · exact List.mem_cons_of_mem _ hc
  · exact List.mem_cons_of_mem _ hc
  · exact hc

theorem stripHexMarker_of_no_digit (s : List Char)
    (h : ∀ c ∈ s, ¬ (48 ≤ c.toNat ∧ c.toNat ≤ 57)) : stripHexMarker s = (10, s) := by
  unfold stripHexMarker
  split
  · exact absurd (by decide) (h '0' (List.mem_cons_self _ _))
  · exact absurd (by decide) (h '0' (List.mem_cons_self _ _))
  · rfl

theorem takeWhile_isRadixDigit_of_no_digit (s : List Char)
    (h : ∀ c ∈ s, ¬ (48 ≤ c.toNat ∧ c.toNat ≤ 57)) :
    s.takeWhile (isRadixDigit 10) = [] := by
  cases s with
  | nil => rfl
  | cons c t =>
    rw [List.takeWhile_cons, not_isRadixDigit_ten c (h c (List.mem_cons_self _ _))]
    rfl

/-- A string with no decimal digit in it is parsed to `NaN`. -/
theorem parseInt_eq_nan_of_no_digit (input : String)
    (h : ∀ c ∈ input.toList, ¬ (48 ≤ c.toNat ∧ c.toNat ≤ 57)) :
    parseInt input = JsNumber.nan := by
  have h0 : ∀ c ∈ input.toList.dropWhile isStrWhiteSpaceChar,
      ¬ (48 ≤ c.toNat ∧ c.toNat ≤ 57) :=
    fun c hc => h c ((List.dropWhile_sublist _).subset hc)
  have h1 : ∀ c ∈ (stripSign (input.toList.dropWhile isStrWhiteSpaceChar)).2,
      ¬ (48 ≤ c.toNat ∧ c.toNat ≤ 57) :=
    fun c hc => h0 c (stripSign_subset _ c hc)
  unfold parseInt
  simp only [stripHexMarker_of_no_digit _ h1, takeWhile_isRadixDigit_of_no_digit _ h1]
  rfl


/-- C9, as stated, fails: with the path parameter "abc", which `parseInt` maps to `NaN`, and a
body the partial schema rejects, the PATCH handler answers 400, not 404; and the path
parameter "5abc", which is not a number but starts with one, is parsed to 5, so that the
DELETE handler removes the seed record 5 of the fresh store and answers 204. -/
theorem malformed_id_counterexample :
    parseInt "abc" = JsNumber.nan ∧
    patchDateOptionHandler zodSchemas MemStorage.constructor "abc"
        [("weight", JsonValue.str "heavy")] =
      (MemStorage.constructor,
        ⟨400, ResponseBody.invalid "Invalid data" [⟨"weight", "Expected integer"⟩]⟩) ∧
    (patchDateOptionHandler zodSchemas MemStorage.constructor "abc"
        [("weight", JsonValue.str "heavy")]).2.status ≠ 404 ∧
    parseInt "5abc" = JsNumber.int 5 ∧
    (deleteDateOptionHandler MemStorage.constructor "5abc" :
        MemStorage × Response (List ZodIssue)).2 = ⟨204, ResponseBody.empty⟩ ∧
    (deleteDateOptionHandler MemStorage.constructor "5abc" :
        MemStorage × Response (List ZodIssue)).1.getAllDateOptions.map (fun o => o.id) =
      [1, 2, 3, 4] := by
  refine ⟨by decide, by decide, by decide, by decide, by decide, by decide⟩

/-- C9, amended: in a reachable store, for a path parameter that `parseInt` maps to `NaN`,
the DELETE handler answers 404 and leaves the store unchanged; the PATCH handler answers 404
and leaves the store unchanged when the partial schema accepts the body, and answers 400
with the validator's errors, the store again unchanged, when the schema rejects it. -/
theorem nan_id_is_not_found {β ε : Type} (schemas : Schemas β ε) (s : MemStorage)
    (idParam : String) (hs : Reachable s) (hp : parseInt idParam = JsNumber.nan) :
    (deleteDateOptionHandler s idParam : MemStorage × Response ε) =
      (s, ⟨404, ResponseBody.message "Date option not found"⟩) ∧
    (∀ (body : β) (data : UpdateDateOption),
      schemas.partialDateOptionSchema body = Except.ok data →
      patchDateOptionHandler schemas s idParam body =
        (s, ⟨404, ResponseBody.message "Date option not found"⟩)) ∧
    (∀ (body : β) (errors : ε),
      schemas.partialDateOptionSchema body = Except.error errors →
      patchDateOptionHandler schemas s idParam body =
        (s, ⟨400, ResponseBody.invalid "Invalid data" errors⟩)) := by
  have hinv := MemStorage.inv_of_reachable hs
  have hhas : s.dateOptions.has JsNumber.nan = false := hinv.2.1.not_has_nan
  have hget : s.dateOptions.get JsNumber.nan = none := (JsMap.get_eq_none_iff _ _).mpr hhas
  have hdel : s.deleteDateOption JsNumber.nan = (s, false) := by
    simp only [MemStorage.deleteDateOption, JsMap.delete_of_not_has hhas]
    simp only [JsMap.delete, hhas]
  refine ⟨?_, ?_, ?_⟩
  · simp only [deleteDateOptionHandler, hp, hdel]
  · intro body data hb
    simp only [patchDateOptionHandler, hp, hb, MemStorage.updateDateOption, hget]
  · intro body errors hb
    simp only [patchDateOptionHandler, hb]

/-- The path parameter "abc" on the fresh store: DELETE is answered 404, and so is a PATCH
with a valid body. -/
theorem nan_id_is_not_found_witness :
    Reachable MemStorage.constructor ∧ parseInt "abc" = JsNumber.nan ∧
    (deleteDateOptionHandler MemStorage.constructor "abc" :
        MemStorage × Response (List ZodIssue)) =
      (MemStorage.constructor, ⟨404, ResponseBody.message "Date option not found"⟩) ∧
    patchDateOptionHandler zodSchemas MemStorage.constructor "abc"
        [("weight", JsonValue.int 5)] =
      (MemStorage.constructor, ⟨404, ResponseBody.message "Date option not found"⟩) :=
  ⟨Reachable.fresh, parseInt_eq_nan_of_no_digit "abc" (by decide),
    (nan_id_is_not_found zodSchemas MemStorage.constructor "abc" Reachable.fresh
      (parseInt_eq_nan_of_no_digit "abc" (by decide))).1,
    (nan_id_is_not_found zodSchemas MemStorage.constructor "abc" Reachable.fresh
      (parseInt_eq_nan_of_no_digit "abc" (by decide))).2.1
      [("weight", JsonValue.int 5)] ⟨none, some 5, none⟩ rfl⟩

end DateNight
